import Mathlib

/-!
Shallow embedding of the x69 assembler (Rust sources: `codegen.rs`,
`instruction.rs`, `lexer.rs`, `parser.rs`) together with theorems checking
the natural-language specification against the code.

Machine integers (`u8`, `u16`) are embedded as `Nat` with explicit `% 256`
(resp. `% 2 ^ 16`) wherever the Rust code can wrap; registers are embedded
as the subtype of naturals `≤ 15`, mirroring the private-field invariant of
the Rust `Register(u8)` newtype whose only constructor is `from_u8`.
-/

/-- `codegen.rs`: `pub struct Register(u8)` with the private field only
reachable through `Register::from_u8`, which admits `0..=15`. -/
def Register := {r : Nat // r ≤ 15}

instance : DecidableEq Register := Subtype.instDecidableEq

/-- `codegen.rs` `Register::from_u8`: only allow `0..15`. -/
def Register.from_u8 (r : Nat) : Option Register :=
  if h : r ≤ 15 then some ⟨r, h⟩ else none

/-- Projection to the underlying register number. -/
def Register.val (r : Register) : Nat := r.1

namespace instruction

/-- `instruction.rs` `OperandMode`. -/
inductive OperandMode where
  | NoParams
  | OneRegister
  | OneOrTwoRegisters
  | OneRegisterAndImmediate
  | TwoRegisters
  | TwoRegistersOrImmediate
  | TwoRegistersOrLongImmediate
deriving DecidableEq

/-- `instruction.rs` `RegisterMap`. -/
inductive RegisterMap where
  | AB
  | BA
  | AA
deriving DecidableEq

/-- `instruction.rs` `Instruction`: the full mnemonic set. -/
inductive Instruction where
  | NOP | CLR | SER | NOT | TWO | AND | NND | ORR | NOR | XOR | XNR
  | ADD | ADC | SUB | SBC | INC | DEC | MOV | MVN | SET | STN | CMP
  | LDR | SDR
  | LPC | JMP
  | LLR | SLR | LSP | SSP | LADR | SADR
  | JMPZ | JMPNZ | JMPC | JMPNC | RJMPZ | RJMPNZ | RJMPC | RJMPNC
  | CALLZ | CALLNZ | CALLC | CALLNC | RCALLZ | RCALLNZ | RCALLC | RCALLNC
deriving DecidableEq

-- CPU special registers (`instruction.rs` consts)
def PC : Nat := 0b00
def LR : Nat := 0b01
def SP : Nat := 0b10
def ADR : Nat := 0b11

/-- `instruction.rs` `rw_builder`. -/
def rw_builder (write : Bool) (register : Nat) : Nat :=
  let rw := 0b01001000 ||| register
  if write then rw ||| 0b100 else rw

-- ALU flags (`instruction.rs` consts)
def ZERO : Nat := 0
def CARRY : Nat := 1

/-- `instruction.rs` `jump_builder`; `alu_flag << 2` on `u8` keeps the low
eight bits, hence the `% 256`. -/
def jump_builder (relative : Bool) (check_true : Bool) (alu_flag : Nat) : Nat :=
  let jmp := 0b01100000 ||| ((alu_flag <<< 2) % 256)
  let jmp := if relative then jmp ||| 0b00000010 else jmp
  if check_true then jmp ||| 0b00010000 else jmp

/-- `instruction.rs` `call_builder`. -/
def call_builder (relative : Bool) (check_true : Bool) (alu_flag : Nat) : Nat :=
  let call := 0b01100001 ||| ((alu_flag <<< 2) % 256)
  let call := if relative then call ||| 0b00000010 else call
  if check_true then call ||| 0b00010000 else call

/-- `instruction.rs` `Instruction::assemble_info`. -/
def Instruction.assemble_info : Instruction → Nat × OperandMode × RegisterMap
  | .NOP => (0b00101001, .NoParams, .AB)
  | .CLR => (0b00100000, .OneRegister, .AA)
  | .SER => (0b00110000, .OneRegister, .AA)
  | .NOT => (0b00100001, .OneOrTwoRegisters, .BA)
  | .TWO => (0b00110001, .OneOrTwoRegisters, .BA)
  | .AND => (0b00100010, .TwoRegistersOrImmediate, .BA)
  | .NND => (0b00110010, .TwoRegistersOrImmediate, .BA)
  | .ORR => (0b00100011, .TwoRegistersOrImmediate, .BA)
  | .NOR => (0b00110011, .TwoRegistersOrImmediate, .BA)
  | .XOR => (0b00100100, .TwoRegistersOrImmediate, .BA)
  | .XNR => (0b00110100, .TwoRegistersOrImmediate, .BA)
  | .ADD => (0b00100101, .TwoRegistersOrImmediate, .BA)
  | .ADC => (0b00110101, .TwoRegistersOrImmediate, .BA)
  | .SUB => (0b00100110, .TwoRegistersOrImmediate, .BA)
  | .SBC => (0b00110110, .TwoRegistersOrImmediate, .BA)
  | .INC => (0b00100111, .OneOrTwoRegisters, .BA)
  | .DEC => (0b00110111, .OneOrTwoRegisters, .BA)
  | .MOV => (0b00101000, .TwoRegistersOrImmediate, .BA)
  | .MVN => (0b00111000, .TwoRegistersOrImmediate, .BA)
  | .SET => (0b00101001, .OneRegisterAndImmediate, .AA)
  | .STN => (0b00111001, .OneRegisterAndImmediate, .AA)
  | .CMP => (0b00101010, .TwoRegisters, .AB)
  | .LDR => (0b00010000, .OneRegisterAndImmediate, .AA)
  | .SDR => (0b00010001, .OneRegisterAndImmediate, .AA)
  | .LPC => (rw_builder false PC, .TwoRegisters, .AB)
  | .JMP => (rw_builder true PC, .TwoRegistersOrLongImmediate, .AB)
  | .LLR => (rw_builder false LR, .TwoRegisters, .AB)
  | .SLR => (rw_builder true LR, .TwoRegistersOrLongImmediate, .AB)
  | .LSP => (rw_builder false SP, .TwoRegisters, .AB)
  | .SSP => (rw_builder true SP, .TwoRegistersOrLongImmediate, .AB)
  | .LADR => (rw_builder false ADR, .TwoRegisters, .AB)
  | .SADR => (rw_builder true ADR, .TwoRegistersOrLongImmediate, .AB)
  | .JMPZ => (jump_builder false true ZERO, .TwoRegistersOrLongImmediate, .AB)
  | .JMPNZ => (jump_builder false false ZERO, .TwoRegistersOrLongImmediate, .AB)
  | .JMPC => (jump_builder false true CARRY, .TwoRegistersOrLongImmediate, .AB)
  | .JMPNC => (jump_builder false false CARRY, .TwoRegistersOrLongImmediate, .AB)
  | .RJMPZ => (jump_builder true true ZERO, .TwoRegistersOrLongImmediate, .AB)
  | .RJMPNZ => (jump_builder true false ZERO, .TwoRegistersOrLongImmediate, .AB)
  | .RJMPC => (jump_builder true true CARRY, .TwoRegistersOrLongImmediate, .AB)
  | .RJMPNC => (jump_builder true false CARRY, .TwoRegistersOrLongImmediate, .AB)
  | .CALLZ => (call_builder false true ZERO, .TwoRegistersOrLongImmediate, .AB)
  | .CALLNZ => (call_builder false false ZERO, .TwoRegistersOrLongImmediate, .AB)
  | .CALLC => (call_builder false true CARRY, .TwoRegistersOrLongImmediate, .AB)
  | .CALLNC => (call_builder false false CARRY, .TwoRegistersOrLongImmediate, .AB)
  | .RCALLZ => (call_builder true true ZERO, .TwoRegistersOrLongImmediate, .AB)
  | .RCALLNZ => (call_builder true false ZERO, .TwoRegistersOrLongImmediate, .AB)
  | .RCALLC => (call_builder true true CARRY, .TwoRegistersOrLongImmediate, .AB)
  | .RCALLNC => (call_builder true false CARRY, .TwoRegistersOrLongImmediate, .AB)

/-- `#[derive(ToFromString)]` (from the `utils` proc-macro crate) generates
`to_str` returning each variant name verbatim. -/
def Instruction.to_str : Instruction → String
  | .NOP => "NOP" | .CLR => "CLR" | .SER => "SER" | .NOT => "NOT"
  | .TWO => "TWO" | .AND => "AND" | .NND => "NND" | .ORR => "ORR"
  | .NOR => "NOR" | .XOR => "XOR" | .XNR => "XNR" | .ADD => "ADD"
  | .ADC => "ADC" | .SUB => "SUB" | .SBC => "SBC" | .INC => "INC"
  | .DEC => "DEC" | .MOV => "MOV" | .MVN => "MVN" | .SET => "SET"
  | .STN => "STN" | .CMP => "CMP" | .LDR => "LDR" | .SDR => "SDR"
  | .LPC => "LPC" | .JMP => "JMP" | .LLR => "LLR" | .SLR => "SLR"
  | .LSP => "LSP" | .SSP => "SSP" | .LADR => "LADR" | .SADR => "SADR"
  | .JMPZ => "JMPZ" | .JMPNZ => "JMPNZ" | .JMPC => "JMPC" | .JMPNC => "JMPNC"
  | .RJMPZ => "RJMPZ" | .RJMPNZ => "RJMPNZ" | .RJMPC => "RJMPC"
  | .RJMPNC => "RJMPNC"
  | .CALLZ => "CALLZ" | .CALLNZ => "CALLNZ" | .CALLC => "CALLC"
  | .CALLNC => "CALLNC"
  | .RCALLZ => "RCALLZ" | .RCALLNZ => "RCALLNZ" | .RCALLC => "RCALLC"
  | .RCALLNC => "RCALLNC"

/-- `#[derive(ToFromString)]` also generates `from_str`, matching each
variant name exactly. -/
def Instruction.from_str (string : String) : Option Instruction :=
  match string with
  | "NOP" => some .NOP | "CLR" => some .CLR | "SER" => some .SER
  | "NOT" => some .NOT | "TWO" => some .TWO | "AND" => some .AND
  | "NND" => some .NND | "ORR" => some .ORR | "NOR" => some .NOR
  | "XOR" => some .XOR | "XNR" => some .XNR | "ADD" => some .ADD
  | "ADC" => some .ADC | "SUB" => some .SUB | "SBC" => some .SBC
  | "INC" => some .INC | "DEC" => some .DEC | "MOV" => some .MOV
  | "MVN" => some .MVN | "SET" => some .SET | "STN" => some .STN
  | "CMP" => some .CMP | "LDR" => some .LDR | "SDR" => some .SDR
  | "LPC" => some .LPC | "JMP" => some .JMP | "LLR" => some .LLR
  | "SLR" => some .SLR | "LSP" => some .LSP | "SSP" => some .SSP
  | "LADR" => some .LADR | "SADR" => some .SADR
  | "JMPZ" => some .JMPZ | "JMPNZ" => some .JMPNZ | "JMPC" => some .JMPC
  | "JMPNC" => some .JMPNC
  | "RJMPZ" => some .RJMPZ | "RJMPNZ" => some .RJMPNZ
  | "RJMPC" => some .RJMPC | "RJMPNC" => some .RJMPNC
  | "CALLZ" => some .CALLZ | "CALLNZ" => some .CALLNZ
  | "CALLC" => some .CALLC | "CALLNC" => some .CALLNC
  | "RCALLZ" => some .RCALLZ | "RCALLNZ" => some .RCALLNZ
  | "RCALLC" => some .RCALLC | "RCALLNC" => some .RCALLNC
  | _ => none

end instruction

namespace lexer

/-- `lexer.rs` `Token`. The `string` constructor is modelled from the spec:
the lexer generation matching `parser.rs` (its `new_lexer`, producing
quoted-string tokens per spec §6) is not under `src/`; every other
constructor is translated from `src/src/lexer.rs`. -/
inductive Tok where
  | ident (s : String)
  | label (s : String)
  | directive (s : String)
  | immediate (s : String)
  | register (s : String)
  | comma
  | unknown (s : String)
  | string (s : String)
deriving DecidableEq

/-- Rust `{:?}` debug formatting of a token, as used in error messages. -/
def reprTok : Tok → String
  | .ident s => "Ident(\"" ++ s ++ "\")"
  | .label s => "Label(\"" ++ s ++ "\")"
  | .directive s => "Directive(\"" ++ s ++ "\")"
  | .immediate s => "Immediate(\"" ++ s ++ "\")"
  | .register s => "Register(\"" ++ s ++ "\")"
  | .comma => "Comma"
  | .unknown s => "Unknown(\"" ++ s ++ "\")"
  | .string s => "String(\"" ++ s ++ "\")"

/-- `lexer.rs` `label_chars`: ASCII alphabetic or underscore. -/
def label_chars (c : Char) : Bool :=
  (('a' ≤ c && c ≤ 'z') || ('A' ≤ c && c ≤ 'Z')) || c = '_'

def isAsciiDigit (c : Char) : Bool := '0' ≤ c && c ≤ '9'

def isAsciiAlpha (c : Char) : Bool :=
  ('a' ≤ c && c ≤ 'z') || ('A' ≤ c && c ≤ 'Z')

def isAsciiHexDigit (c : Char) : Bool :=
  isAsciiDigit c || ('a' ≤ c && c ≤ 'f') || ('A' ≤ c && c ≤ 'F')

/-- ASCII fragment of Rust `char::is_whitespace` (source lines are ASCII). -/
def isWS (c : Char) : Bool := c = ' ' || c = '\t' || c = '\n' || c = '\r'

/-- Rust `str::trim` on a character list. -/
def trimChars (cs : List Char) : List Char :=
  ((cs.dropWhile isWS).reverse.dropWhile isWS).reverse

/-- One step of `Lexer::next` (`lexer.rs`).  Characters are consumed from
the front of the trimmed remainder exactly as in the source; the `stringLit`
flag enables the quoted-string branch of the newer lexer (modelled from the
spec) used by `parser.rs`, and is off for the `codegen.rs` path. -/
def lexNext (stringLit : Bool) (cs0 : List Char) : Option (Tok × List Char) :=
  let cs := trimChars cs0
  match cs with
  | [] => none
  | c :: rest =>
    if c = 'r' || c = 'R' then
      let p := rest.span isAsciiDigit
      if p.1 ≠ [] then
        some (.register (String.mk p.1), p.2)
      else
        let q := cs.span label_chars
        match q.2 with
        | ':' :: r2 => some (.label (String.mk q.1), r2)
        | _ => some (.ident (String.mk q.1), q.2)
    else if c = '.' then
      let p := rest.span isAsciiAlpha
      some (.directive (String.mk p.1), p.2)
    else if c = ',' then
      some (.comma, rest)
    else if stringLit && c = '"' then
      -- Modelled from the spec: quoted-string token of the missing lexer.
      let p := rest.span (fun d => d ≠ '"')
      some (.string (String.mk p.1), p.2.drop 1)
    else if c = '/' then
      match rest with
      | [] => some (.unknown (String.mk [c]), [])
      | c2 :: r2 =>
        if c2 = '/' then none  -- `//` comment consumes the rest of the line
        else some (.unknown (String.mk [c, c2]), r2)
    else if label_chars c then
      let q := cs.span label_chars
      match q.2 with
      | ':' :: r2 => some (.label (String.mk q.1), r2)
      | _ => some (.ident (String.mk q.1), q.2)
    else if isAsciiDigit c then
      if c = '0' then
        match rest with
        | 'x' :: r2 =>
          let p := r2.span isAsciiHexDigit
          some (.immediate (String.mk ('0' :: 'x' :: p.1)), p.2)
        | 'b' :: r2 =>
          let p := r2.span (fun d => d = '1' || d = '0')
          some (.immediate (String.mk ('0' :: 'b' :: p.1)), p.2)
        | c2 :: r2 =>
          if isAsciiDigit c2 then
            let p := r2.span isAsciiDigit
            some (.immediate (String.mk ('0' :: c2 :: p.1)), p.2)
          else
            -- `&self.remain[..2]` with a non-numeric second character
            some (.unknown (String.mk ['0', c2]), r2)
        | [] =>
          -- source indexes `&self.remain[..2]` here and panics on a lone "0"
          some (.unknown (String.mk ['0']), [])
      else
        let p := cs.span isAsciiDigit
        some (.immediate (String.mk p.1), p.2)
    else
      some (.unknown (String.mk [c]), rest)

/-- Iterate the lexer to the end of one line; the fuel (line length plus
one) dominates the token count since every token consumes a character. -/
def lexAux (stringLit : Bool) : Nat → List Char → List Tok
  | 0, _ => []
  | fuel + 1, cs =>
    match lexNext stringLit cs with
    | none => []
    | some (t, rest) => t :: lexAux stringLit fuel rest

/-- All tokens of one source line. -/
def lexLine (stringLit : Bool) (s : String) : List Tok :=
  lexAux stringLit (s.data.length + 1) s.data

end lexer

/-! Numeric literal interpretation: `parser.rs` `make_int!` / `make_register!`.
The macros expand per target type; `bits` is `size_of::<$int>() * 8`. -/

/-- Rust `char::to_digit` value (36 marks an invalid digit). -/
def digitVal (c : Char) : Nat :=
  if '0' ≤ c && c ≤ '9' then c.toNat - 48
  else if 'a' ≤ c && c ≤ 'z' then c.toNat - 87
  else if 'A' ≤ c && c ≤ 'Z' then c.toNat - 55
  else 36

def isRadixDigit (radix : Nat) (c : Char) : Bool := digitVal c < radix

/-- Value of a digit string in the given radix (most significant first). -/
def radixVal (radix : Nat) (cs : List Char) : Nat :=
  cs.foldl (fun a c => a * radix + digitVal c) 0

/-- Rust `$int::from_str_radix` on a `bits`-wide unsigned target.  The
slices it receives in `make_int!` contain plain digits, so the optional
sign accepted by Rust is not modelled. -/
def from_str_radix (radix bits : Nat) (cs : List Char) : Except String Nat :=
  if cs = [] then .error "cannot parse integer from empty string"
  else if cs.all (isRadixDigit radix) then
    if radixVal radix cs < 2 ^ bits then .ok (radixVal radix cs)
    else .error "number too large to fit in target type"
  else .error "invalid digit found in string"

/-- Rust `str::parse::<$int>` for a `bits`-wide unsigned target: an
optional leading `+`, then decimal digits, rejecting out-of-range values. -/
def rustParseUInt (bits : Nat) (cs : List Char) : Except String Nat :=
  from_str_radix 10 bits (match cs with | '+' :: r => r | _ => cs)

/-- The indefinite article chosen in `make_int!`: `an` before an `8`. -/
def indefArticle (bits : Nat) : String :=
  match (Nat.repr bits).data with
  | '8' :: _ => "an"
  | _ => "a"

/-- The truncation warning text of `make_int!`. -/
def truncWarn (bits : Nat) (im : String) : String :=
  "immediate " ++ im ++ " will be truncated to " ++ indefArticle bits ++ " "
    ++ Nat.repr bits ++ "-bit value"

/-- `parser.rs` `make_int!`: interpret one numeric-literal token against a
`bits`-wide unsigned target.  Returns the optional truncation warning
(`log_only!`) and either the value or the `could not parse` error text. -/
def makeInt (bits : Nat) (im : String) : Option String × Except String Nat :=
  let parsed : Option String × Except String Nat :=
    match im.data with
    | '0' :: 'x' :: _ =>
      if im.data.length > bits / 4 + 2 then
        (some (truncWarn bits im),
          from_str_radix 16 bits (im.data.drop (2 + (im.data.length - bits / 4 - 2))))
      else
        (none, from_str_radix 16 bits (im.data.drop 2))
    | '0' :: 'b' :: _ =>
      if im.data.length > bits + 2 then
        (some (truncWarn bits im),
          from_str_radix 2 bits (im.data.drop (2 + (im.data.length - bits - 2))))
      else
        (none, from_str_radix 2 bits (im.data.drop 2))
    | _ => (none, rustParseUInt bits im.data)
  match parsed with
  | (w, .ok i) => (w, .ok i)
  | (w, .error err) => (w, .error ("could not parse " ++ im ++ ": " ++ err))

/-- `parser.rs` `make_register!`: parse the register numeral as `u8`, then
range-check it through `Register::from_u8`; both failure modes log the same
`register out of bounds` error. -/
def makeRegister (reg : String) : Except String Register :=
  match rustParseUInt 8 reg.data with
  | .ok r =>
    match Register.from_u8 r with
    | some r => .ok r
    | none => .error ("register out of bounds: " ++ reg)
  | .error _ => .error ("register out of bounds: " ++ reg)

/-- ASCII uppercasing (`str::to_ascii_uppercase`; the mnemonic strings are
ASCII, where `to_uppercase` agrees). -/
def upperAscii (s : String) : String :=
  String.mk (s.data.map (fun c =>
    if 'a' ≤ c && c ≤ 'z' then Char.ofNat (c.toNat - 32) else c))

/-- Split on `'\n'` (front half of Rust `str::lines`). -/
def splitNl : List Char → List (List Char)
  | [] => [[]]
  | '\n' :: rest => [] :: splitNl rest
  | c :: rest =>
    match splitNl rest with
    | l :: ls => (c :: l) :: ls
    | [] => [[c]]

/-- Strip one trailing `'\r'` (Rust `str::lines` drops it). -/
def stripCR (cs : List Char) : List Char :=
  match cs.reverse with
  | '\r' :: r => r.reverse
  | _ => cs

/-- Rust `str::lines`: split on `'\n'`, no entry for a final newline, each
line stripped of a trailing `'\r'`. -/
def rustLines (s : String) : List String :=
  let parts := splitNl s.data
  let parts := if parts.getLast? = some [] then parts.dropLast else parts
  parts.map (fun cs => String.mk (stripCR cs))

namespace codegen

/-- `codegen.rs` `OperandMode` (the older, module-local copy). -/
inductive OperandMode where
  | NoParams
  | OneRegister
  | OneOrTwoRegisters
  | OneRegisterAndImmediate
  | TwoRegisters
  | TwoRegistersOrImmediate
deriving DecidableEq

/-- `codegen.rs` `RegisterMap`. -/
inductive RegisterMap where
  | AB
  | BA
  | AA
  | BB
deriving DecidableEq

/-- `codegen.rs` `Instruction` (the older, module-local mnemonic set). -/
inductive Instruction where
  | NOP | CLR | SER | NOT | TWO | AND | NND | ORR | NOR | XOR | XNR
  | ADD | ADC | SUB | SBC | INC | DEC | MOV | MVN
deriving DecidableEq

/-- `codegen.rs` `Instruction::from_str`. -/
def Instruction.from_str (name : String) : Option Instruction :=
  match name with
  | "NOP" => some .NOP | "CLR" => some .CLR | "SER" => some .SER
  | "NOT" => some .NOT | "TWO" => some .TWO | "AND" => some .AND
  | "NND" => some .NND | "ORR" => some .ORR | "NOR" => some .NOR
  | "XOR" => some .XOR | "XNR" => some .XNR | "ADD" => some .ADD
  | "ADC" => some .ADC | "SUB" => some .SUB | "SBC" => some .SBC
  | "INC" => some .INC | "DEC" => some .DEC | "MOV" => some .MOV
  | "MVN" => some .MVN
  | _ => none

/-- `codegen.rs` `Instruction::to_str`. -/
def Instruction.to_str : Instruction → String
  | .NOP => "NOP" | .CLR => "CLR" | .SER => "SER" | .NOT => "NOT"
  | .TWO => "TWO" | .AND => "AND" | .NND => "NND" | .ORR => "ORR"
  | .NOR => "NOR" | .XOR => "XOR" | .XNR => "XNR" | .ADD => "ADD"
  | .ADC => "ADC" | .SUB => "SUB" | .SBC => "SBC" | .INC => "INC"
  | .DEC => "DEC" | .MOV => "MOV" | .MVN => "MVN"

/-- `codegen.rs` `Instruction::assemble_info`; note the wildcard arm, which
is what `NOP` lands on. -/
def Instruction.assemble_info : Instruction → Nat × OperandMode × RegisterMap
  | .CLR => (0b00100000, .OneRegister, .AA)
  | .SER => (0b00110000, .OneRegister, .AA)
  | .NOT => (0b00100001, .TwoRegistersOrImmediate, .BA)
  | .TWO => (0b00110001, .TwoRegistersOrImmediate, .BA)
  | .AND => (0b00100010, .TwoRegistersOrImmediate, .BA)
  | .NND => (0b00110010, .TwoRegistersOrImmediate, .BA)
  | .ORR => (0b00100011, .TwoRegistersOrImmediate, .BA)
  | .NOR => (0b00110011, .TwoRegistersOrImmediate, .BA)
  | .XOR => (0b00100100, .TwoRegistersOrImmediate, .BA)
  | .XNR => (0b00110100, .TwoRegistersOrImmediate, .BA)
  | .ADD => (0b00100101, .TwoRegistersOrImmediate, .BA)
  | .ADC => (0b00110101, .TwoRegistersOrImmediate, .BA)
  | .SUB => (0b00100110, .TwoRegistersOrImmediate, .BA)
  | .SBC => (0b00110110, .TwoRegistersOrImmediate, .BA)
  | .INC => (0b00100111, .OneOrTwoRegisters, .BA)
  | .DEC => (0b00110111, .OneOrTwoRegisters, .BA)
  | .MOV => (0b00101000, .TwoRegistersOrImmediate, .BA)
  | .MVN => (0b00111000, .TwoRegistersOrImmediate, .BA)
  | _ => (0, .NoParams, .AB)

/-- `codegen.rs` `InstructionBuilder`. -/
structure InstructionBuilder where
  line : Nat
  name : Instruction
  a : Option Register
  b : Option Register
  immediate : Option Nat
deriving DecidableEq

/-- The operand-mode match at the head of `InstructionBuilder::assemble`:
selects the effective `(a, b, immediate)` triple or returns the error the
source produces with an early `return`. -/
def operands (line : Nat) (nm : String) (mode : OperandMode)
    (a b : Option Register) (immediate : Option Nat) :
    Except String (Register × Register × Option Nat) :=
  match mode with
  | .OneRegister =>
    match a, b, immediate with
    | some a, none, none => .ok (a, a, none)
    | _, _, _ =>
      .error ("Line " ++ Nat.repr line ++ ": " ++ nm ++ " requires only one register")
  | .OneOrTwoRegisters =>
    match a, b, immediate with
    | some a, some b, none => .ok (a, b, none)
    | some a, none, none => .ok (a, a, none)
    | _, _, some _ =>
      .error ("Line " ++ Nat.repr line ++ ": " ++ nm ++ " cannot accept an immediate")
    | _, _, _ =>
      .error ("Line " ++ Nat.repr line ++ ": " ++ nm ++ " requires at least one register")
  | .TwoRegistersOrImmediate =>
    match a with
    | some a =>
      match b with
      | some b => .ok (a, b, immediate)
      | none =>
        match immediate with
        | some _ => .ok (a, a, immediate)
        | none =>
          .error ("Line " ++ Nat.repr line ++ ": " ++ nm ++ " requires at least two operands")
    | none =>
      .error ("Line " ++ Nat.repr line ++ ": " ++ nm ++ " requires at least two operands")
  | _ => .error ("Line " ++ Nat.repr line ++ ": " ++ nm ++ " NOT IMPLEMENTED LOL")

/-- The register-mapping match of `InstructionBuilder::assemble`. -/
def map_registers : RegisterMap → Register → Register → Register × Register
  | .AA, a, _ => (a, a)
  | .AB, a, b => (a, b)
  | .BA, a, b => (b, a)
  | .BB, _, b => (b, b)

/-- `codegen.rs` `InstructionBuilder::assemble`.  The mutable `Vec<u8>` is
threaded explicitly: the result pairs the buffer after the call with the
`Result<u8>` return value.  All `return Err` paths precede any push, so
they leave the buffer as received. -/
def InstructionBuilder.assemble (self : InstructionBuilder) (buffer : List Nat) :
    List Nat × Except String Nat :=
  let asm_info := self.name.assemble_info
  match operands self.line self.name.to_str asm_info.2.1 self.a self.b self.immediate with
  | .error e => (buffer, .error e)
  | .ok (a, b, i) =>
    let ab := map_registers asm_info.2.2 a b
    let lo := asm_info.1
    let hi := (ab.1.val &&& 0x0f) ||| ((ab.2.val <<< 4) &&& 0xF0)
    match i with
    | some immediate => (buffer ++ [lo ||| 0b10000000, hi, immediate], .ok 3)
    | none => (buffer ++ [lo, hi], .ok 2)

/-- `codegen.rs` `parse_line`, taking the token sequence of one line.
`codegen.rs` consumes numeric `Register(u8)`/`Immediate(u8)` token
payloads; the lexer generation producing them is not under `src/`, so the
textual payloads of `src/src/lexer.rs` are converted here with the
repository's own `make_register!`/`make_int!` conventions (spec §6). -/
def parse_line (ts : List lexer.Tok) (line : Nat) : Except String InstructionBuilder :=
  match ts with
  | .ident ins :: rest =>
    let ins := upperAscii ins
    match Instruction.from_str ins with
    | none => .error ("Line " ++ Nat.repr line ++ ": Unknown instruction: " ++ ins)
    | some name =>
      let output : InstructionBuilder :=
        { line := line, name := name, a := none, b := none, immediate := none }
      -- Take first operand, register a
      match rest with
      | [] => .ok output
      | .register r :: rest =>
        match rustParseUInt 8 r.data with
        | .error _ => .error ("Line " ++ Nat.repr line ++ ": Register out of bounds: " ++ r)
        | .ok rv =>
          match Register.from_u8 rv with
          | none => .error ("Line " ++ Nat.repr line ++ ": Register out of bounds: " ++ r)
          | some a =>
            let output := { output with a := some a }
            -- Match comma or exit
            match rest with
            | [] => .ok output
            | .comma :: rest =>
              -- Take second operand, either register b or immediate
              match rest with
              | [] => .error ("Line " ++ Nat.repr line ++ ": Unexpected trailing ','")
              | .register r2 :: rest =>
                match rustParseUInt 8 r2.data with
                | .error _ =>
                  .error ("Line " ++ Nat.repr line ++ ": Register out of bounds: " ++ r2)
                | .ok rv2 =>
                  match Register.from_u8 rv2 with
                  | none =>
                    .error ("Line " ++ Nat.repr line ++ ": Register out of bounds: " ++ r2)
                  | some b =>
                    let output := { output with b := some b }
                    -- Match optional comma
                    match rest with
                    | [] => .ok output
                    | .comma :: rest =>
                      match rest with
                      | [] => .error ("Line " ++ Nat.repr line ++ ": Unexpected trailing ','")
                      | .immediate i :: rest =>
                        match (makeInt 8 i).2 with
                        | .error e => .error ("Line " ++ Nat.repr line ++ ": " ++ e)
                        | .ok iv =>
                          match rest with
                          | [] => .ok { output with immediate := some iv }
                          | tok :: _ =>
                            .error ("Line " ++ Nat.repr line
                              ++ ": Unexpected token after third operand: " ++ lexer.reprTok tok)
                      | tok :: _ =>
                        .error ("Line " ++ Nat.repr line
                          ++ ": Expected immediate as third operand, got: " ++ lexer.reprTok tok)
                    | tok :: _ =>
                      .error ("Line " ++ Nat.repr line
                        ++ ": Expected a ',' after the second operand, got: " ++ lexer.reprTok tok)
              | .immediate i :: rest =>
                match (makeInt 8 i).2 with
                | .error e => .error ("Line " ++ Nat.repr line ++ ": " ++ e)
                | .ok iv =>
                  match rest with
                  | [] => .ok { output with immediate := some iv }
                  | tok :: _ =>
                    .error ("Line " ++ Nat.repr line
                      ++ ": Unexpected token after immediate operand: " ++ lexer.reprTok tok)
              | tok :: _ =>
                .error ("Line " ++ Nat.repr line
                  ++ ": Expected register or immediate as second operand, got: "
                  ++ lexer.reprTok tok)
            | tok :: _ =>
              .error ("Line " ++ Nat.repr line
                ++ ": Expected a ',' after the first operand, got: " ++ lexer.reprTok tok)
      | tok :: _ =>
        .error ("Line " ++ Nat.repr line
          ++ ": Expected register as first operand, got: " ++ lexer.reprTok tok)
  | tok :: _ =>
    .error ("Line " ++ Nat.repr line ++ ": Unexpected token: " ++ lexer.reprTok tok)
  | [] =>
    .error ("Line " ++ Nat.repr line
      ++ " was parsed as empty, contact your local assembler dev...")

/-- The loop of `codegen.rs` `assemble`: the `?` operator aborts the whole
pass on the first failing line, keeping the bytes already pushed. -/
def assembleGo : List (Nat × String) → List Nat → Nat → List Nat × Except String Nat
  | [], buffer, written => (buffer, .ok written)
  | (i, line) :: rest, buffer, written =>
    match parse_line (lexer.lexLine false line) i with
    | .error e => (buffer, .error e)
    | .ok instruction =>
      match instruction.assemble buffer with
      | (buffer, .error e) => (buffer, .error e)
      | (buffer, .ok n) => assembleGo rest buffer (written + n)

/-- `codegen.rs` `assemble`: enumerate the source lines, skip the ones that
are empty after trimming, parse and assemble each in order. -/
def assemble (source : String) (buffer : List Nat) : List Nat × Except String Nat :=
  assembleGo
    (((rustLines source).enum).filter
      (fun p => !(lexer.trimChars p.2.data).isEmpty))
    buffer 0

end codegen

deriving instance DecidableEq for Except

namespace parsing

/-- `parser.rs` `Log`: (line, message, originating file) diagnostics. -/
inductive Log where
  | Warning (line : Nat) (msg : String) (origin : String)
  | Error (line : Nat) (msg : String) (origin : String)
  | IOError (msg : String) (origin : String)
deriving DecidableEq

/-- `parser.rs` `Log::is_error`. -/
def Log.is_error : Log → Bool
  | .Error _ _ _ => true
  | .IOError _ _ => true
  | _ => false

/-- `parser.rs` `Parameters` (the constructor typo is the source's). -/
inductive Parameters where
  | None
  | Label (name : String)
  | LongImmediate (i : Nat)
  | OneRegister (a : Register)
  | TwoRegisters (a b : Register)
  | OneRegisterImmediate (a : Register) (i : Nat)
  | TwoRegistersImmedaite (a b : Register) (i : Nat)
deriving DecidableEq

/-- `parser.rs` `DataByte`. -/
inductive DataByte where
  | Label (name : String)
  | Byte (b : Nat)
deriving DecidableEq

/-- `parser.rs` `Directive`. -/
inductive Directive where
  | Line (offset : Nat)
  | DB (bytes : List DataByte)
deriving DecidableEq

/-- `parser.rs` `LineData`. -/
inductive LineData where
  | Label (name : String)
  | Directive (d : Directive)
  | Instruction (name : instruction.Instruction) (params : Parameters)
deriving DecidableEq

/-- `parser.rs` `Line`. -/
structure Line where
  origin : String
  line : Nat
  data : LineData
deriving DecidableEq

/-- `std::path::Path::parent` on the string form: everything before the
final `/` component (empty when there is none), modelled for ASCII paths. -/
def parentDir (p : String) : String :=
  let r := p.data.reverse.dropWhile (fun c => c ≠ '/')
  String.mk (r.drop 1).reverse

/-- `Path::join` for the relative include paths the parser builds. -/
def joinPath (a b : String) : String :=
  if a = "" then b else a ++ "/" ++ b

/-- The `db` directive item loop of `parse_raw`: greedily consume numeric
literals, bare identifiers and strings until end of line; an unexpected
token (or a `make_int!` failure) abandons the whole line via `log!`, and an
empty item list warns without pushing the line. -/
def db_items (origin : String) (line : Nat) :
    List lexer.Tok → List DataByte → List Log → List Line × List Log
  | [], data_bytes, ws =>
    if data_bytes.isEmpty then
      ([], ws ++ [.Warning line "empty db field" origin])
    else
      ([⟨origin, line, .Directive (.DB data_bytes)⟩], ws)
  | .immediate byte :: rest, data_bytes, ws =>
    match makeInt 8 byte with
    | (w, .ok v) =>
      db_items origin line rest (data_bytes ++ [.Byte v])
        (ws ++ (w.map (fun m => Log.Warning line m origin)).toList)
    | (w, .error e) =>
      ([], ws ++ (w.map (fun m => Log.Warning line m origin)).toList
        ++ [.Error line e origin])
  | .ident l :: rest, data_bytes, ws =>
    db_items origin line rest (data_bytes ++ [.Label l]) ws
  | .string s :: rest, data_bytes, ws =>
    db_items origin line rest
      (data_bytes ++ s.data.map (fun c => DataByte.Byte c.toNat)) ws
  | tok :: _, _, ws =>
    ([], ws ++ [.Error line ("unexpected token in db field: " ++ lexer.reprTok tok) origin])

end parsing

namespace parsing

/-- The loop body of `parser.rs` `parse_raw` for one enumerated source
line.  `pf` performs the nested `.include` parse-and-splice
(`parse_file`); `origin` is the `Rc<String>` file name and `opts` the
`ParseOptions` origin path.  `log!` (push a diagnostic, `continue`) becomes
returning the lines pushed so far with the diagnostics; `log_only!`
warnings are threaded through.  Misspellings in messages are the
source's. -/
def parse_one_line (pf : String → List Line × List Log) (origin : String)
    (opts : Option String) (line : Nat) (source : String) :
    List Line × List Log :=
  let err := fun (msg : String) => Log.Error line msg origin
  let warnList := fun (w : Option String) =>
    (w.map (fun m => Log.Warning line m origin)).toList
  let ts := lexer.lexLine true source
  -- Parsing label
  let lp : List Line × List lexer.Tok :=
    match ts with
    | .label l :: rest => ([⟨origin, line, .Label l⟩], rest)
    | _ => ([], ts)
  let lines0 := lp.1
  -- Match first token and go from there
  match lp.2 with
  -- Parsing directives
  | .directive dir :: rest =>
    if dir = "include" then
      match rest with
      | .string path :: _ =>
        -- Test path relative to the input file first
        let parent := match opts with | some o => parentDir o | none => ""
        let file_name := joinPath parent path
        let r := pf file_name
        (lines0 ++ r.1, r.2)
      | tok :: _ =>
        (lines0, [err ("expected a string file path, got: " ++ lexer.reprTok tok)])
      | [] => (lines0, [err "expected a string file path"])
    else if dir = "line" then
      match rest with
      | .immediate offset :: rest2 =>
        match rest2 with
        | [] =>
          match makeInt 16 offset with
          | (w, .ok v) =>
            (lines0 ++ [⟨origin, line, .Directive (.Line v)⟩], warnList w)
          | (w, .error e) => (lines0, warnList w ++ [err e])
        | tok :: _ =>
          (lines0, [err ("unexpected token after line offset: " ++ lexer.reprTok tok)])
      | tok :: _ =>
        (lines0, [err ("expected an immediate for line offset, got: " ++ lexer.reprTok tok)])
      | [] => (lines0, [err "expected an immediate for line offset"])
    else if dir = "db" then
      let r := db_items origin line rest [] []
      (lines0 ++ r.1, r.2)
    else
      (lines0, [err ("unknown directive: " ++ dir)])
  -- Parsing instructions
  | .ident ins :: rest =>
    match instruction.Instruction.from_str (upperAscii ins) with
    | none => (lines0, [err ("unknown instruction: " ++ ins)])
    | some name =>
      let push := fun (ps : Parameters) (ws : List Log) =>
        (lines0 ++ [(⟨origin, line, .Instruction name ps⟩ : Line)], ws)
      match name.assemble_info.2.1 with
      | .NoParams =>
        match rest with
        | [] => push .None []
        | tok :: _ =>
          (lines0, [err (name.to_str ++ " expects zero parameters, got: " ++ lexer.reprTok tok)])
      | .OneRegister =>
        match rest with
        | .register r :: rest2 =>
          match makeRegister r with
          | .error e => (lines0, [err e])
          | .ok reg =>
            match rest2 with
            | [] => push (.OneRegister reg) []
            | tok :: _ =>
              (lines0, [err ("unexpected token after register: " ++ lexer.reprTok tok)])
        | tok :: _ =>
          (lines0, [err (name.to_str ++ " expectes one register, got: " ++ lexer.reprTok tok)])
        | [] => (lines0, [err (name.to_str ++ " requires one register")])
      | .OneOrTwoRegisters =>
        match rest with
        | .register r :: rest2 =>
          match makeRegister r with
          | .error e => (lines0, [err e])
          | .ok reg1 =>
            match rest2 with
            | [] => push (.OneRegister reg1) []
            | .comma :: rest3 =>
              match rest3 with
              | .register r2 :: rest4 =>
                match makeRegister r2 with
                | .error e => (lines0, [err e])
                | .ok reg2 =>
                  match rest4 with
                  | [] => push (.TwoRegisters reg1 reg2) []
                  | tok :: _ =>
                    (lines0,
                      [err ("unexpected token after second register: " ++ lexer.reprTok tok)])
              | tok :: _ =>
                (lines0, [err ("expected a register, got: " ++ lexer.reprTok tok)])
              | [] => (lines0, [err "trailing ','s are not allowed"])
            | tok :: _ =>
              (lines0, [err ("expected ',' after first register, got: " ++ lexer.reprTok tok)])
        | tok :: _ =>
          (lines0,
            [err (name.to_str ++ " expects at leat one register, got: " ++ lexer.reprTok tok)])
        | [] => (lines0, [err (name.to_str ++ " expects at least one register")])
      | .OneRegisterAndImmediate =>
        match rest with
        | .register r :: rest2 =>
          match makeRegister r with
          | .error e => (lines0, [err e])
          | .ok reg =>
            match rest2 with
            | .comma :: rest3 =>
              match rest3 with
              | .immediate i :: rest4 =>
                match makeInt 8 i with
                | (w, .ok iv) =>
                  match rest4 with
                  | [] => push (.OneRegisterImmediate reg iv) (warnList w)
                  | tok :: _ =>
                    (lines0,
                      warnList w ++ [err ("unexpected token after immediate: " ++ lexer.reprTok tok)])
                | (w, .error e) => (lines0, warnList w ++ [err e])
              | tok :: _ =>
                (lines0, [err ("expected a regsiter, got: " ++ lexer.reprTok tok)])
              | [] => (lines0, [err "trailing ','s are not allowed"])
            | tok :: _ =>
              (lines0, [err ("expected ',' after register, got: " ++ lexer.reprTok tok)])
            | [] => (lines0, [err (name.to_str ++ " expects one register and an immediate")])
        | tok :: _ =>
          (lines0,
            [err (name.to_str ++ " expects one register and an immediate, got: "
              ++ lexer.reprTok tok)])
        | [] => (lines0, [err (name.to_str ++ " expects one register and an immediate")])
      | .TwoRegisters =>
        match rest with
        | .register r :: rest2 =>
          match makeRegister r with
          | .error e => (lines0, [err e])
          | .ok reg1 =>
            match rest2 with
            | .comma :: rest3 =>
              match rest3 with
              | .register r2 :: rest4 =>
                match makeRegister r2 with
                | .error e => (lines0, [err e])
                | .ok reg2 =>
                  match rest4 with
                  | [] => push (.TwoRegisters reg1 reg2) []
                  | tok :: _ =>
                    (lines0,
                      [err ("unexpected token after second register: " ++ lexer.reprTok tok)])
              | tok :: _ =>
                (lines0, [err ("expected a regsiter, got: " ++ lexer.reprTok tok)])
              | [] => (lines0, [err (name.to_str ++ " expects two registers")])
            | tok :: _ =>
              (lines0, [err ("expected ',' after first register, got: " ++ lexer.reprTok tok)])
            | [] => (lines0, [err (name.to_str ++ " expects two registers")])
        | tok :: _ =>
          (lines0, [err (name.to_str ++ " expects two registers, got: " ++ lexer.reprTok tok)])
        | [] => (lines0, [err (name.to_str ++ " expects two registers")])
      | .TwoRegistersOrImmediate =>
        match rest with
        | .register r :: rest2 =>
          match makeRegister r with
          | .error e => (lines0, [err e])
          | .ok reg1 =>
            match rest2 with
            | .comma :: rest3 =>
              match rest3 with
              | .register r2 :: rest4 =>
                match makeRegister r2 with
                | .error e => (lines0, [err e])
                | .ok reg2 =>
                  match rest4 with
                  | [] => push (.TwoRegisters reg1 reg2) []
                  | .comma :: rest5 =>
                    match rest5 with
                    | .immediate i :: rest6 =>
                      match makeInt 8 i with
                      | (w, .ok iv) =>
                        match rest6 with
                        | [] => push (.TwoRegistersImmedaite reg1 reg2 iv) (warnList w)
                        | tok :: _ =>
                          (lines0,
                            warnList w
                              ++ [err ("unexpected token after immediate: " ++ lexer.reprTok tok)])
                      | (w, .error e) => (lines0, warnList w ++ [err e])
                    | tok :: _ =>
                      (lines0, [err ("expected an immediate, got: " ++ lexer.reprTok tok)])
                    | [] =>
                      (lines0, [err (name.to_str ++ " expects two registers and an immediate")])
                  | tok :: _ =>
                    (lines0,
                      [err ("expected ',' after second register, got: " ++ lexer.reprTok tok)])
              | .immediate i :: rest4 =>
                match rest4 with
                | [] =>
                  match makeInt 8 i with
                  | (w, .ok iv) => push (.OneRegisterImmediate reg1 iv) (warnList w)
                  | (w, .error e) => (lines0, warnList w ++ [err e])
                | tok :: _ =>
                  (lines0, [err ("unexpected token after immediate: " ++ lexer.reprTok tok)])
              | tok :: _ =>
                (lines0, [err ("expected a regsiter or an immediate, got: " ++ lexer.reprTok tok)])
              | [] => (lines0, [err (name.to_str ++ " expects as least two parameters")])
            | tok :: _ =>
              (lines0, [err ("expected ',' after first register, got: " ++ lexer.reprTok tok)])
            | [] => (lines0, [err (name.to_str ++ " expects two registers")])
        | tok :: _ =>
          (lines0,
            [err (name.to_str ++ " expects at least two parameters, got: " ++ lexer.reprTok tok)])
        | [] => (lines0, [err (name.to_str ++ " expects at least two parameters")])
      | .TwoRegistersOrLongImmediate =>
        match rest with
        | .register r :: rest2 =>
          match makeRegister r with
          | .error e => (lines0, [err e])
          | .ok reg1 =>
            match rest2 with
            | .comma :: rest3 =>
              match rest3 with
              | .register r2 :: rest4 =>
                match makeRegister r2 with
                | .error e => (lines0, [err e])
                | .ok reg2 =>
                  match rest4 with
                  | [] => push (.TwoRegisters reg1 reg2) []
                  | tok :: _ =>
                    (lines0,
                      [err ("unexpected token after second register: " ++ lexer.reprTok tok)])
              | tok :: _ =>
                (lines0, [err ("expected a regsiter, got: " ++ lexer.reprTok tok)])
              | [] => (lines0, [err (name.to_str ++ " expects two registers")])
            | tok :: _ =>
              (lines0, [err ("expected ',' after first register, got: " ++ lexer.reprTok tok)])
            | [] => (lines0, [err (name.to_str ++ " expects two registers")])
        | .immediate i :: rest2 =>
          match rest2 with
          | [] =>
            match makeInt 16 i with
            | (w, .ok iv) => push (.LongImmediate iv) (warnList w)
            | (w, .error e) => (lines0, warnList w ++ [err e])
          | tok :: _ =>
            (lines0, [err ("unexpected token after immediate: " ++ lexer.reprTok tok)])
        | .ident l :: rest2 =>
          match rest2 with
          | [] => push (.Label l) []
          | tok :: _ =>
            (lines0, [err ("unexpected token after label: " ++ lexer.reprTok tok)])
        | tok :: _ =>
          (lines0, [err (name.to_str ++ " expects two registers, got: " ++ lexer.reprTok tok)])
        | [] => (lines0, [err (name.to_str ++ " expects two registers")])
  | tok :: _ => (lines0, [err ("unexpected token: " ++ lexer.reprTok tok)])
  | [] => (lines0, [])

end parsing

namespace parsing

/-- The accumulating loop of `parse_raw` over the enumerated source lines:
run the loop body on each line in order, appending the parsed lines and
diagnostics it produces to the two growing vectors. -/
def parse_lines (pf : String → List Line × List Log) (origin : String)
    (opts : Option String) :
    List (Nat × String) → List Line × List Log → List Line × List Log
  | [], acc => acc
  | p :: ps, acc =>
    let r := parse_one_line pf origin opts p.1 p.2
    parse_lines pf origin opts ps (acc.1 ++ r.1, acc.2 ++ r.2)

/-- `parser.rs` `parse_raw`: enumerate the source's lines and run the loop
body on each.  An `.include` is resolved by `parse_file`: open the path
against the abstract file system `fs` (file reading is I/O, kept as a
parameter), report an `IOError` when the file cannot be read, and
otherwise parse the contents recursively with the included file as the new
origin.  `fuel` bounds the include nesting depth (the source has no cycle
detection; spec §5 leaves a self-including file an open question). -/
def parse_raw (fs : String → Option String) :
    Nat → String → Option String → List Line × List Log
  | 0, _, _ => ([], [])
  | fuel + 1, source, opts =>
    let origin := match opts with | some o => o | none => "[unknown]"
    parse_lines
      (fun path =>
        match fs path with
        | none => ([], [.IOError "No such file or directory (os error 2)" path])
        | some contents => parse_raw fs fuel contents (some path))
      origin opts (rustLines source).enum ([], [])

/-- The include callback of `parse_raw` at a given nesting budget
(`parse_file` composed with the file system), written as a standalone
function; it is definitionally the callback `parse_raw` passes to
`parse_one_line`. -/
def include_fn (fs : String → Option String) (fuel : Nat) (path : String) :
    List Line × List Log :=
  match fs path with
  | none => ([], [.IOError "No such file or directory (os error 2)" path])
  | some contents => parse_raw fs fuel contents (some path)

end parsing

namespace codegen2

/-- Modelled from the spec: `codegen::assemble_lines` is called from
`main.rs` and `lib.rs` but its definition is not under `src/`.  This
models its post-pass patch state (spec §3, §4.4): the symbol table built
during the single forward pass and the pending patch list of
`(label name, placeholder byte offset, originating source line)` triples. -/
structure Patch where
  label : String
  offset : Nat
  line : Nat
deriving DecidableEq

/-- Modelled from the spec: overwrite the 2-byte placeholder at `offset`
with the little-endian encoding of the resolved 16-bit address. -/
def write16le (buffer : List Nat) (offset addr : Nat) : List Nat :=
  (buffer.set offset (addr % 256)).set (offset + 1) (addr / 256 % 256)

/-- Modelled from the spec (§4.4, final step of the missing
`codegen::assemble_lines`): after the full pass, for each pending patch
look up its label in the symbol table; if found, overwrite the
placeholder's two bytes with the little-endian resolved offset; if not
found, emit an `unresolved symbol` error and leave the placeholder bytes
as emitted. -/
def resolve_patches (symbols : List (String × Nat)) :
    List Patch → List Nat → List Nat × List String
  | [], buffer => (buffer, [])
  | p :: ps, buffer =>
    match symbols.lookup p.label with
    | some addr => resolve_patches symbols ps (write16le buffer p.offset addr)
    | none =>
      let r := resolve_patches symbols ps buffer
      (r.1, ("unresolved symbol: " ++ p.label) :: r.2)

end codegen2

/-- A concrete builder (`add r15, r0, 123` after parsing), used to
instantiate the encoding-layout theorem. -/
def sampleBuilder : codegen.InstructionBuilder :=
  { line := 0, name := .ADD, a := some ⟨15, by omega⟩, b := some ⟨0, by omega⟩,
    immediate := some 123 }

/-! ## Theorems -/

/-- Every value of the `Register` subtype is at most 15. -/
theorem Register.val_le15 (r : Register) : r.val ≤ 15 := r.2

/-- For a register value, masking the shifted high nibble with `0xF0` is a
no-op: `(v << 4) & 0xF0 = v << 4` whenever `v ≤ 15`. -/
theorem shl4_and_F0 (v : Nat) (h : v ≤ 15) : (v <<< 4) &&& 0xF0 = v <<< 4 := by
  interval_cases v <;> rfl

/-- C1: for every instruction builder that assembles successfully, the
emitted bytes follow the mode-determined layout: with no effective
immediate, exactly two bytes — the opcode byte, then
`(mappedA & 0x0F) | (mappedB << 4)` for the mapped register operands; with
an immediate, exactly three bytes — the opcode byte with bit `0x80` set,
the nibble byte, and the immediate verbatim. -/
theorem C1_instruction_byte_layout :
    ∀ (bld : codegen.InstructionBuilder) (buffer buf2 : List Nat) (n : Nat),
    bld.assemble buffer = (buf2, .ok n) →
    ∃ A B i,
      codegen.operands bld.line bld.name.to_str bld.name.assemble_info.2.1
        bld.a bld.b bld.immediate = .ok (A, B, i) ∧
      (i = none → n = 2 ∧
        buf2 = buffer ++ [bld.name.assemble_info.1,
          ((codegen.map_registers bld.name.assemble_info.2.2 A B).1.val &&& 0x0F) |||
          ((codegen.map_registers bld.name.assemble_info.2.2 A B).2.val <<< 4)]) ∧
      (∀ im, i = some im → n = 3 ∧
        buf2 = buffer ++ [bld.name.assemble_info.1 ||| 0x80,
          ((codegen.map_registers bld.name.assemble_info.2.2 A B).1.val &&& 0x0F) |||
          ((codegen.map_registers bld.name.assemble_info.2.2 A B).2.val <<< 4),
          im]) := by
  intro bld buffer buf2 n h
  rcases ho : codegen.operands bld.line bld.name.to_str bld.name.assemble_info.2.1
      bld.a bld.b bld.immediate with e | ⟨A, B, i⟩
  · simp [codegen.InstructionBuilder.assemble, ho] at h
  · refine ⟨A, B, i, rfl, ?_, ?_⟩
    · rintro rfl
      simp [codegen.InstructionBuilder.assemble, ho] at h
      rw [shl4_and_F0 ((codegen.map_registers bld.name.assemble_info.2.2 A B).2.val)
        ((codegen.map_registers bld.name.assemble_info.2.2 A B).2.2)] at h
      exact ⟨h.2.symm, h.1.symm⟩
    · rintro im rfl
      simp [codegen.InstructionBuilder.assemble, ho] at h
      rw [shl4_and_F0 ((codegen.map_registers bld.name.assemble_info.2.2 A B).2.val)
        ((codegen.map_registers bld.name.assemble_info.2.2 A B).2.2)] at h
      exact ⟨h.2.symm, h.1.symm⟩

/-- Witness for C1 at the builder of `add r15, r0, 123` on the empty
buffer: the hypothesis is discharged by `rfl`. -/
theorem C1_instruction_byte_layout_witness :
    ∃ A B i,
      codegen.operands sampleBuilder.line sampleBuilder.name.to_str
        sampleBuilder.name.assemble_info.2.1 sampleBuilder.a sampleBuilder.b
        sampleBuilder.immediate = .ok (A, B, i) ∧
      (i = none → 3 = 2 ∧
        [165, 240, 123] = [] ++ [sampleBuilder.name.assemble_info.1,
          ((codegen.map_registers sampleBuilder.name.assemble_info.2.2 A B).1.val &&& 0x0F) |||
          ((codegen.map_registers sampleBuilder.name.assemble_info.2.2 A B).2.val <<< 4)]) ∧
      (∀ im, i = some im → 3 = 3 ∧
        [165, 240, 123] = [] ++ [sampleBuilder.name.assemble_info.1 ||| 0x80,
          ((codegen.map_registers sampleBuilder.name.assemble_info.2.2 A B).1.val &&& 0x0F) |||
          ((codegen.map_registers sampleBuilder.name.assemble_info.2.2 A B).2.val <<< 4),
          im]) :=
  C1_instruction_byte_layout sampleBuilder [] [165, 240, 123] 3 rfl

/-- C4: the claim (and spec §8) says `assemble("nop")` succeeds producing
`[0b00101001, 0x00]`; the `codegen.rs` pipeline instead aborts, because its
`assemble_info` drops `NOP` into the wildcard arm `(0, NoParams, AB)` and
`InstructionBuilder::assemble` answers `NoParams` with the
`NOT IMPLEMENTED LOL` error, emitting no bytes. -/
theorem C4_nop_not_implemented :
    codegen.assemble "nop" [] = ([], .error "Line 0: NOP NOT IMPLEMENTED LOL") := rfl

/-- C5: assembling `add r15, r0, 123` produces exactly
`[0b10100101, 0xF0, 123]` — ADD's opcode `0b00100101` with the immediate
bit set, the nibble byte packing b=15 high / a=0 low per the BA mapping,
and the immediate byte verbatim. -/
theorem C5_add_r15_r0_123 :
    codegen.assemble "add r15, r0, 123" [] = ([0b10100101, 0xF0, 123], .ok 3) := rfl

/-- C9: the opcode table of `instruction.rs` is not injective: the distinct
mnemonics NOP and SET share the opcode byte `0b00101001`; SET's operand
mode always carries an immediate (so its immediate flag bit is always set
in assembled output). -/
theorem C9_opcode_table_not_injective :
    instruction.Instruction.NOP.assemble_info.1 = 0b00101001 ∧
    instruction.Instruction.SET.assemble_info.1 = 0b00101001 ∧
    instruction.Instruction.NOP ≠ instruction.Instruction.SET ∧
    instruction.Instruction.SET.assemble_info.2.1 =
      instruction.OperandMode.OneRegisterAndImmediate := by
  refine ⟨rfl, rfl, ?_, rfl⟩
  decide

/-- C10: `InstructionBuilder::assemble` is append-only and atomic on
error: on `Ok n` it has appended exactly `n` bytes (2 or 3) and the
pre-existing buffer is a prefix of the result; on `Err` the buffer is
returned unchanged. -/
theorem C10_assemble_append_only :
    ∀ (bld : codegen.InstructionBuilder) (buffer : List Nat),
    (∃ n tail, bld.assemble buffer = (buffer ++ tail, .ok n) ∧
      tail.length = n ∧ (n = 2 ∨ n = 3)) ∨
    (∃ e, bld.assemble buffer = (buffer, .error e)) := by
  intro bld buffer
  rcases ho : codegen.operands bld.line bld.name.to_str bld.name.assemble_info.2.1
      bld.a bld.b bld.immediate with e | ⟨a, b, i⟩
  · right
    exact ⟨e, by simp [codegen.InstructionBuilder.assemble, ho]⟩
  · left
    rcases i with _ | im
    · refine ⟨2, [bld.name.assemble_info.1,
        ((codegen.map_registers bld.name.assemble_info.2.2 a b).1.val &&& 0x0f) |||
          (((codegen.map_registers bld.name.assemble_info.2.2 a b).2.val <<< 4) &&& 0xF0)],
        ?_, rfl, Or.inl rfl⟩
      simp [codegen.InstructionBuilder.assemble, ho]
    · refine ⟨3, [bld.name.assemble_info.1 ||| 0b10000000,
        ((codegen.map_registers bld.name.assemble_info.2.2 a b).1.val &&& 0x0f) |||
          (((codegen.map_registers bld.name.assemble_info.2.2 a b).2.val <<< 4) &&& 0xF0),
        im], ?_, rfl, Or.inr rfl⟩
      simp [codegen.InstructionBuilder.assemble, ho]

/-- C8: the control-transfer opcode builders place their parameters in
disjoint bit positions — `rw_builder` puts the 2-bit special-register id in
bits 0–1 and the write flag in bit 2 over base `0b01001000`;
`jump_builder`/`call_builder` put the status-flag id in bits 2–3, the
relative flag in bit 1 and the if-set gate in bit 4 over base `0b0110000x`;
and `call_builder = jump_builder ||| 1` for all arguments. -/
theorem C8_builder_bit_layout :
    (∀ (write : Bool) (register : Nat), register < 4 →
      instruction.rw_builder write register =
        0b01001000 + 4 * (if write then 1 else 0) + register) ∧
    (∀ (relative check_true : Bool) (alu_flag : Nat), alu_flag < 4 →
      instruction.jump_builder relative check_true alu_flag =
        0b01100000 + 16 * (if check_true then 1 else 0) + 4 * alu_flag
          + 2 * (if relative then 1 else 0)) ∧
    (∀ (relative check_true : Bool) (alu_flag : Nat), alu_flag < 4 →
      instruction.call_builder relative check_true alu_flag =
        0b01100000 + 16 * (if check_true then 1 else 0) + 4 * alu_flag
          + 2 * (if relative then 1 else 0) + 1) ∧
    (∀ (relative check_true : Bool) (alu_flag : Nat),
      instruction.call_builder relative check_true alu_flag =
        instruction.jump_builder relative check_true alu_flag ||| 1) := by
  refine ⟨?_, ?_, ?_, ?_⟩
  · intro w r hr
    interval_cases r <;> cases w <;> rfl
  · intro rel t f hf
    interval_cases f <;> cases rel <;> cases t <;> rfl
  · intro rel t f hf
    interval_cases f <;> cases rel <;> cases t <;> rfl
  · intro rel t f
    have shuffle : ∀ a x : Nat, (a ||| x) ||| 1 = (a ||| 1) ||| x := by
      intro a x
      rw [Nat.or_assoc, Nat.or_comm x 1, ← Nat.or_assoc]
    have h961 : (96 : Nat) ||| 1 = 97 := by decide
    cases rel <;> cases t <;>
      simp only [instruction.call_builder, instruction.jump_builder,
        if_true, if_false, Bool.false_eq_true, ite_false, ite_true] <;>
      simp only [shuffle, h961]

/-- Witness for C8 at concrete parameters. -/
theorem C8_builder_bit_layout_witness :
    instruction.rw_builder true 2 = 0b01001000 + 4 * 1 + 2 ∧
    instruction.jump_builder true false 1 = 0b01100000 + 16 * 0 + 4 * 1 + 2 * 1 ∧
    instruction.call_builder false true 1 = 0b01100000 + 16 * 1 + 4 * 1 + 2 * 0 + 1 ∧
    instruction.call_builder true true 3 = instruction.jump_builder true true 3 ||| 1 := by
  refine ⟨?_, ?_, ?_, C8_builder_bit_layout.2.2.2 true true 3⟩
  · simpa using C8_builder_bit_layout.1 true 2 (by decide)
  · simpa using C8_builder_bit_layout.2.1 true false 1 (by decide)
  · simpa using C8_builder_bit_layout.2.2.1 false true 1 (by decide)

/-- C7: `Register::from_u8` succeeds exactly on `0..=15` and preserves the
value; every representable `Register` is at most 15; and the parser-level
`make_register!` yields a register exactly when the numeral parses as `u8`
to a value at most 15, producing the `register out of bounds` error
otherwise. -/
theorem C7_register_range_check :
    (∀ r : Nat, (Register.from_u8 r).isSome ↔ r ≤ 15) ∧
    (∀ (r : Nat) (reg : Register), Register.from_u8 r = some reg → reg.val = r) ∧
    (∀ reg : Register, reg.val ≤ 15) ∧
    (∀ s : String, (∃ reg, makeRegister s = .ok reg) ↔
      (∃ v, rustParseUInt 8 s.data = .ok v ∧ v ≤ 15)) ∧
    (∀ s : String, ¬(∃ v, rustParseUInt 8 s.data = .ok v ∧ v ≤ 15) →
      makeRegister s = .error ("register out of bounds: " ++ s)) ∧
    (∀ (s : String) (reg : Register), makeRegister s = .ok reg → reg.val ≤ 15) := by
  have hval : ∀ (r : Nat) (reg : Register), Register.from_u8 r = some reg → reg.val = r := by
    intro r reg h
    rw [Register.from_u8] at h
    split at h
    · cases h
      rfl
    · cases h
  have hsome : ∀ (v : Nat) (reg : Register), Register.from_u8 v = some reg → v ≤ 15 := by
    intro v reg h
    rw [Register.from_u8] at h
    split at h
    · assumption
    · cases h
  refine ⟨?_, hval, fun reg => reg.2, ?_, ?_, fun s reg _ => reg.2⟩
  · intro r
    by_cases h : r ≤ 15 <;> simp [Register.from_u8, h]
  · intro s
    constructor
    · rintro ⟨reg, h⟩
      rcases hp : rustParseUInt 8 s.data with e | v
      · simp only [makeRegister, hp] at h
        cases h
      · simp only [makeRegister, hp] at h
        rcases hv : Register.from_u8 v with _ | reg2
        · simp only [hv] at h
          cases h
        · exact ⟨v, rfl, hsome v reg2 hv⟩
    · rintro ⟨v, hp, hle⟩
      refine ⟨⟨v, hle⟩, ?_⟩
      simp only [makeRegister, hp, Register.from_u8, hle, dite_true]
  · intro s h
    rcases hp : rustParseUInt 8 s.data with e | v
    · simp only [makeRegister, hp]
    · rcases hv : Register.from_u8 v with _ | reg2
      · simp only [makeRegister, hp, hv]
      · exact absurd ⟨v, hp, hsome v reg2 hv⟩ h

/-- Witness for C7 at the concrete numerals 15, 16, `"7"`, `"16"`,
`"999"`. -/
theorem C7_register_range_check_witness :
    (Register.from_u8 15).isSome ∧
    ¬(Register.from_u8 16).isSome ∧
    (∃ reg, makeRegister "7" = .ok reg) ∧
    makeRegister "16" = .error ("register out of bounds: " ++ "16") ∧
    makeRegister "999" = .error ("register out of bounds: " ++ "999") := by
  refine ⟨(C7_register_range_check.1 15).mpr (by decide), ?_, ?_, ?_, ?_⟩
  · intro h
    have := (C7_register_range_check.1 16).mp h
    omega
  · exact (C7_register_range_check.2.2.2.1 "7").mpr ⟨7, by decide, by decide⟩
  · refine C7_register_range_check.2.2.2.2.1 "16" ?_
    rintro ⟨v, hv, hle⟩
    rw [show rustParseUInt 8 "16".data = Except.ok 16 from rfl] at hv
    cases hv
    omega
  · refine C7_register_range_check.2.2.2.2.1 "999" ?_
    rintro ⟨v, hv, hle⟩
    rw [show rustParseUInt 8 "999".data
      = Except.error "number too large to fit in target type" from rfl] at hv
    cases hv

theorem radixVal_aux (r : Nat) (cs : List Char) (i : Nat) :
    cs.foldl (fun a c => a * r + digitVal c) i = i * r ^ cs.length + radixVal r cs := by
  induction cs generalizing i with
  | nil => simp [radixVal]
  | cons c cs ih =>
    have hcons : radixVal r (c :: cs) = digitVal c * r ^ cs.length + radixVal r cs := by
      show cs.foldl _ (0 * r + digitVal c) = _
      rw [Nat.zero_mul, Nat.zero_add, ih]
    simp only [List.foldl_cons, List.length_cons]
    rw [ih, hcons]
    ring

theorem radixVal_cons (r : Nat) (c : Char) (cs : List Char) :
    radixVal r (c :: cs) = digitVal c * r ^ cs.length + radixVal r cs := by
  show cs.foldl _ (0 * r + digitVal c) = _
  rw [Nat.zero_mul, Nat.zero_add, radixVal_aux]

theorem radixVal_append (r : Nat) (a b : List Char) :
    radixVal r (a ++ b) = radixVal r a * r ^ b.length + radixVal r b := by
  unfold radixVal
  rw [List.foldl_append]
  exact radixVal_aux r b _

theorem radixVal_lt (r : Nat) (cs : List Char) (h : ∀ c ∈ cs, digitVal c < r) :
    radixVal r cs < r ^ cs.length := by
  induction cs with
  | nil => simp [radixVal]
  | cons c cs ih =>
    have hc := h c (List.mem_cons_self c cs)
    have ih2 := ih (fun d hd => h d (List.mem_cons_of_mem c hd))
    rw [radixVal_cons]
    calc digitVal c * r ^ cs.length + radixVal r cs
        < digitVal c * r ^ cs.length + r ^ cs.length := by omega
      _ = (digitVal c + 1) * r ^ cs.length := by ring
      _ ≤ r * r ^ cs.length := Nat.mul_le_mul_right _ hc
      _ = r ^ (c :: cs).length := by rw [List.length_cons]; ring

theorem radixVal_drop (r : Nat) (cs : List Char) (k : Nat)
    (h : ∀ c ∈ cs, digitVal c < r) :
    radixVal r (cs.drop k) = radixVal r cs % r ^ (cs.length - k) := by
  have hsplit : radixVal r cs
      = radixVal r (cs.take k) * r ^ (cs.drop k).length + radixVal r (cs.drop k) := by
    conv_lhs => rw [← List.take_append_drop k cs]
    exact radixVal_append r _ _
  have hlen : (cs.drop k).length = cs.length - k := List.length_drop k cs
  have hlt : radixVal r (cs.drop k) < r ^ (cs.drop k).length :=
    radixVal_lt r _ (fun d hd => h d (List.mem_of_mem_drop hd))
  rw [hsplit, ← hlen, Nat.mul_add_mod_of_lt hlt]

theorem isRadixDigit_val {radix : Nat} {c : Char} (h : isRadixDigit radix c) :
    digitVal c < radix := by
  simpa [isRadixDigit] using h

theorem makeInt_dec_overflow : ∀ (bits : Nat) (ds : List Char), ds ≠ [] →
    (∀ c ∈ ds, isRadixDigit 10 c) → 2 ^ bits ≤ radixVal 10 ds →
    makeInt bits (String.mk ds) =
      (none, .error ("could not parse " ++ String.mk ds ++ ": "
        ++ "number too large to fit in target type")) := by
  intro bits ds hne hds hval
  have hid : (String.mk ds).data = ds := rfl
  have hfsr : rustParseUInt bits ds = .error "number too large to fit in target type" := by
    have hall : ds.all (isRadixDigit 10) := List.all_eq_true.mpr hds
    rw [rustParseUInt]
    · rw [from_str_radix, if_neg hne, if_pos hall, if_neg (by omega)]
    · intro r heq
      exact absurd (hds '+' (by rw [heq]; simp)) (by decide)
  simp only [makeInt, hid]
  split
  · rename_i w i h
    split at h
    · exact absurd (hds 'x' (by simp)) (by decide)
    · exact absurd (hds 'b' (by simp)) (by decide)
    · rw [hfsr] at h
      simp at h
  · rename_i w e h
    split at h
    · exact absurd (hds 'x' (by simp)) (by decide)
    · exact absurd (hds 'b' (by simp)) (by decide)
    · rw [hfsr] at h
      simp only [Prod.mk.injEq, Except.error.injEq] at h
      rw [← h.1, ← h.2]

theorem makeInt_bin_trunc : ∀ (bits : Nat) (ds : List Char), (bits = 8 ∨ bits = 16) →
    (∀ c ∈ ds, isRadixDigit 2 c) → bits < ds.length →
    makeInt bits (String.mk ('0' :: 'b' :: ds)) =
      (some (truncWarn bits (String.mk ('0' :: 'b' :: ds))),
       .ok (radixVal 2 ds % 2 ^ bits)) := by
  intro bits ds hbits hds hlen
  have hbpos : 0 < bits := by rcases hbits with rfl | rfl <;> norm_num
  have hdlen : ((String.mk ('0' :: 'b' :: ds)).data).length = ds.length + 2 := by
    simp
  have hcond : (String.mk ('0' :: 'b' :: ds)).data.length > bits + 2 := by
    rw [hdlen]; omega
  have hdroplen : (ds.drop (ds.length - bits)).length = bits := by
    rw [List.length_drop]; omega
  have hdrop2 : (String.mk ('0' :: 'b' :: ds)).data.drop
      (2 + ((String.mk ('0' :: 'b' :: ds)).data.length - bits - 2))
      = ds.drop (ds.length - bits) := by
    rw [hdlen]
    have h2 : 2 + (ds.length + 2 - bits - 2) = (ds.length - bits) + 1 + 1 := by omega
    rw [h2]
    rfl
  have hfsr : from_str_radix 2 bits (ds.drop (ds.length - bits))
      = .ok (radixVal 2 ds % 2 ^ bits) := by
    have hne : ¬(ds.drop (ds.length - bits) = []) := by
      intro hnil
      rw [hnil] at hdroplen
      simp at hdroplen
      omega
    have hall : (ds.drop (ds.length - bits)).all (isRadixDigit 2) := by
      rw [List.all_eq_true]
      exact fun c hc => hds c (List.mem_of_mem_drop hc)
    have hvals : radixVal 2 (ds.drop (ds.length - bits)) = radixVal 2 ds % 2 ^ bits := by
      rw [radixVal_drop 2 ds _ (fun c hc => isRadixDigit_val (hds c hc))]
      have hexp : ds.length - (ds.length - bits) = bits := by omega
      rw [hexp]
    rw [from_str_radix, if_neg hne, if_pos hall, hvals,
      if_pos (Nat.mod_lt _ (by positivity))]
  simp only [makeInt]
  rw [if_pos hcond, hdrop2, hfsr]

theorem makeInt_hex_trunc : ∀ (bits : Nat) (ds : List Char), (bits = 8 ∨ bits = 16) →
    (∀ c ∈ ds, isRadixDigit 16 c) → bits / 4 < ds.length →
    makeInt bits (String.mk ('0' :: 'x' :: ds)) =
      (some (truncWarn bits (String.mk ('0' :: 'x' :: ds))),
       .ok (radixVal 16 ds % 2 ^ bits)) := by
  intro bits ds hbits hds hlen
  have hpow : (16 : Nat) ^ (bits / 4) = 2 ^ bits := by
    rcases hbits with rfl | rfl <;> norm_num
  have hbpos : 0 < bits / 4 := by rcases hbits with rfl | rfl <;> norm_num
  have hdlen : ((String.mk ('0' :: 'x' :: ds)).data).length = ds.length + 2 := by
    simp
  have hcond : (String.mk ('0' :: 'x' :: ds)).data.length > bits / 4 + 2 := by
    rw [hdlen]; omega
  have hdroplen : (ds.drop (ds.length - bits / 4)).length = bits / 4 := by
    rw [List.length_drop]; omega
  have hdrop2 : (String.mk ('0' :: 'x' :: ds)).data.drop
      (2 + ((String.mk ('0' :: 'x' :: ds)).data.length - bits / 4 - 2))
      = ds.drop (ds.length - bits / 4) := by
    rw [hdlen]
    have h2 : 2 + (ds.length + 2 - bits / 4 - 2) = (ds.length - bits / 4) + 1 + 1 := by omega
    rw [h2]
    rfl
  have hfsr : from_str_radix 16 bits (ds.drop (ds.length - bits / 4))
      = .ok (radixVal 16 ds % 2 ^ bits) := by
    have hne : ¬(ds.drop (ds.length - bits / 4) = []) := by
      intro hnil
      rw [hnil] at hdroplen
      simp at hdroplen
      omega
    have hall : (ds.drop (ds.length - bits / 4)).all (isRadixDigit 16) := by
      rw [List.all_eq_true]
      exact fun c hc => hds c (List.mem_of_mem_drop hc)
    have hvals : radixVal 16 (ds.drop (ds.length - bits / 4)) = radixVal 16 ds % 2 ^ bits := by
      rw [radixVal_drop 16 ds _ (fun c hc => isRadixDigit_val (hds c hc))]
      congr 1
      rw [← hpow]
      congr 1
      omega
    rw [from_str_radix, if_neg hne, if_pos hall, hvals,
      if_pos (Nat.mod_lt _ (by positivity))]
  simp only [makeInt]
  rw [if_pos hcond, hdrop2, hfsr]


/-- C3: numeric-literal interpretation against an 8- or 16-bit target.
Hex/binary literals with more digits than the width holds drop the extra
leading digits — the value equals the full value mod `2 ^ width` — and
emit a truncation warning; oversized decimal literals fail with a hard
error and produce no value. -/
theorem C3_numeric_literals :
    (∀ (bits : Nat) (ds : List Char), (bits = 8 ∨ bits = 16) →
      (∀ c ∈ ds, isRadixDigit 16 c) → bits / 4 < ds.length →
      makeInt bits (String.mk ('0' :: 'x' :: ds)) =
        (some (truncWarn bits (String.mk ('0' :: 'x' :: ds))),
         .ok (radixVal 16 ds % 2 ^ bits))) ∧
    (∀ (bits : Nat) (ds : List Char), (bits = 8 ∨ bits = 16) →
      (∀ c ∈ ds, isRadixDigit 2 c) → bits < ds.length →
      makeInt bits (String.mk ('0' :: 'b' :: ds)) =
        (some (truncWarn bits (String.mk ('0' :: 'b' :: ds))),
         .ok (radixVal 2 ds % 2 ^ bits))) ∧
    (∀ (bits : Nat) (ds : List Char), ds ≠ [] →
      (∀ c ∈ ds, isRadixDigit 10 c) → 2 ^ bits ≤ radixVal 10 ds →
      makeInt bits (String.mk ds) =
        (none, .error ("could not parse " ++ String.mk ds ++ ": "
          ++ "number too large to fit in target type"))) :=
  ⟨makeInt_hex_trunc, makeInt_bin_trunc, makeInt_dec_overflow⟩

/-- Witness for C3 at `0x1ab`, `0b101010101` and `256` against the 8-bit
target. -/
theorem C3_numeric_literals_witness :
    makeInt 8 (String.mk ('0' :: 'x' :: ['1', 'a', 'b'])) =
      (some (truncWarn 8 (String.mk ('0' :: 'x' :: ['1', 'a', 'b']))),
       .ok (radixVal 16 ['1', 'a', 'b'] % 2 ^ 8)) ∧
    makeInt 8 (String.mk ('0' :: 'b' :: ['1', '0', '1', '0', '1', '0', '1', '0', '1'])) =
      (some (truncWarn 8 (String.mk
        ('0' :: 'b' :: ['1', '0', '1', '0', '1', '0', '1', '0', '1']))),
       .ok (radixVal 2 ['1', '0', '1', '0', '1', '0', '1', '0', '1'] % 2 ^ 8)) ∧
    makeInt 8 (String.mk ['2', '5', '6']) =
      (none, .error ("could not parse " ++ String.mk ['2', '5', '6'] ++ ": "
        ++ "number too large to fit in target type")) := by
  refine ⟨?_, ?_, ?_⟩
  · exact C3_numeric_literals.1 8 ['1', 'a', 'b'] (Or.inl rfl) (by decide) (by decide)
  · exact C3_numeric_literals.2.1 8 ['1', '0', '1', '0', '1', '0', '1', '0', '1']
      (Or.inl rfl) (by decide) (by decide)
  · exact C3_numeric_literals.2.2 8 ['2', '5', '6'] (by decide) (by decide) (by decide)

/-- The accumulating loop over enumerated lines equals the concatenation of
the per-line results: the parsed lines and the diagnostics of each line are
appended in order, independently of every other line. -/
theorem parse_lines_flatMap (pf : String → List parsing.Line × List parsing.Log)
    (origin : String) (opts : Option String) :
    ∀ (l : List (Nat × String)) (acc : List parsing.Line × List parsing.Log),
      parsing.parse_lines pf origin opts l acc
        = (acc.1 ++ l.flatMap (fun p => (parsing.parse_one_line pf origin opts p.1 p.2).1),
           acc.2 ++ l.flatMap (fun p => (parsing.parse_one_line pf origin opts p.1 p.2).2)) := by
  intro l
  induction l with
  | nil => intro acc; simp [parsing.parse_lines]
  | cons x xs ih =>
    intro acc
    rw [parsing.parse_lines, ih]
    simp [List.append_assoc]

/-- C6 (amended): `parse_raw` processes every enumerated source line
independently — each line contributes zero or more parsed lines and zero
or more diagnostics, the whole result being their in-order concatenation;
hence a failure on line `i` never prevents lines after `i` from being
parsed, and all diagnostics accumulate instead of aborting the pass. -/
theorem C6_per_line_independence :
    ∀ (fs : String → Option String) (fuel : Nat) (source : String) (opts : Option String),
      parsing.parse_raw fs (fuel + 1) source opts =
        ((rustLines source).enum.flatMap (fun p =>
          (parsing.parse_one_line (parsing.include_fn fs fuel)
            (match opts with | some o => o | none => "[unknown]") opts p.1 p.2).1),
         (rustLines source).enum.flatMap (fun p =>
          (parsing.parse_one_line (parsing.include_fn fs fuel)
            (match opts with | some o => o | none => "[unknown]") opts p.1 p.2).2)) := by
  intro fs fuel source opts
  show parsing.parse_lines (parsing.include_fn fs fuel)
    (match opts with | some o => o | none => "[unknown]") opts
    (rustLines source).enum ([], []) = _
  rw [parse_lines_flatMap]
  simp

/-- C6 counterexample: the single source line `x: nop` parses without any
diagnostic into TWO parsed lines (a label declaration and an instruction),
refuting "parsing a line produces exactly one parsed line or terminates
that line with diagnostic(s)". -/
theorem C6_counterexample_label_line :
    (parsing.parse_raw (fun _ => none) 1 "x: nop" none).1 =
      [⟨"[unknown]", 0, .Label "x"⟩,
       ⟨"[unknown]", 0, .Instruction instruction.Instruction.NOP .None⟩] ∧
    (parsing.parse_raw (fun _ => none) 1 "x: nop" none).2 = [] := by
  constructor <;> rfl
/-- Writing a 2-byte placeholder patch preserves the buffer length. -/
theorem write16le_length (b : List Nat) (off a : Nat) :
    (codegen2.write16le b off a).length = b.length := by
  simp [codegen2.write16le]

/-- A 16-bit little-endian write touches only its two byte positions. -/
theorem write16le_get_ne (b : List Nat) (off a i : Nat) (h1 : i ≠ off) (h2 : i ≠ off + 1) :
    (codegen2.write16le b off a)[i]? = b[i]? := by
  rw [codegen2.write16le, List.getElem?_set_ne (by omega), List.getElem?_set_ne (by omega)]

/-- The low byte written at `offset` is `addr % 256`. -/
theorem write16le_get_lo (b : List Nat) (off a : Nat) (h : off + 1 < b.length) :
    (codegen2.write16le b off a)[off]? = some (a % 256) := by
  rw [codegen2.write16le, List.getElem?_set_ne (by omega),
    List.getElem?_set_eq_of_lt _ (by omega)]

/-- The high byte written at `offset + 1` is `addr / 256 % 256`. -/
theorem write16le_get_hi (b : List Nat) (off a : Nat) (h : off + 1 < b.length) :
    (codegen2.write16le b off a)[off + 1]? = some (a / 256 % 256) := by
  rw [codegen2.write16le, List.getElem?_set_eq_of_lt _ (by simp; omega)]

/-- Patch resolution preserves the buffer length. -/
theorem resolve_length (symbols : List (String × Nat)) :
    ∀ (ps : List codegen2.Patch) (b : List Nat),
      (codegen2.resolve_patches symbols ps b).1.length = b.length := by
  intro ps
  induction ps with
  | nil => intro b; rfl
  | cons p ps ih =>
    intro b
    rw [codegen2.resolve_patches]
    cases h : symbols.lookup p.label with
    | some addr =>
      have h2 := (ih (codegen2.write16le b p.offset addr)).trans
        (write16le_length b p.offset addr)
      simpa using h2
    | none => simpa using ih b

/-- Patch resolution leaves every byte outside all placeholder positions
unchanged. -/
theorem resolve_untouched (symbols : List (String × Nat)) :
    ∀ (ps : List codegen2.Patch) (b : List Nat) (i : Nat),
      (∀ p ∈ ps, i ≠ p.offset ∧ i ≠ p.offset + 1) →
      (codegen2.resolve_patches symbols ps b).1[i]? = b[i]? := by
  intro ps
  induction ps with
  | nil => intro b i _; rfl
  | cons p ps ih =>
    intro b i hp
    rw [codegen2.resolve_patches]
    cases h : symbols.lookup p.label with
    | some addr =>
      have hgn := hp p (List.mem_cons_self p ps)
      have h2 := (ih (codegen2.write16le b p.offset addr) i
          (fun q hq => hp q (List.mem_cons_of_mem p hq))).trans
        (write16le_get_ne b p.offset addr i hgn.1 hgn.2)
      simpa using h2
    | none => simpa using ih b i (fun q hq => hp q (List.mem_cons_of_mem p hq))

/-- Every patch whose label is absent from the symbol table contributes an
unresolved-symbol error. -/
theorem resolve_err_mem (symbols : List (String × Nat)) :
    ∀ (ps : List codegen2.Patch) (b : List Nat) (p : codegen2.Patch), p ∈ ps →
      symbols.lookup p.label = none →
      ("unresolved symbol: " ++ p.label) ∈ (codegen2.resolve_patches symbols ps b).2 := by
  intro ps
  induction ps with
  | nil => intro b p hp _; cases hp
  | cons q ps ih =>
    intro b p hp hnone
    rw [codegen2.resolve_patches]
    rcases List.mem_cons.mp hp with rfl | hp2
    · rw [hnone]
      simp
    · cases h : symbols.lookup q.label with
      | some addr => simpa using ih (codegen2.write16le b q.offset addr) p hp2 hnone
      | none => simpa using List.mem_cons_of_mem _ (ih b p hp2 hnone)

/-- C2: after the resolution pass over non-overlapping in-bounds pending
patches, every patch whose label is in the symbol table has its 2-byte
placeholder overwritten with the little-endian resolved offset, and every
patch whose label is absent produces an unresolved-symbol error while its
placeholder bytes are left exactly as emitted. -/
theorem C2_patch_resolution :
    ∀ (symbols : List (String × Nat)) (patches : List codegen2.Patch) (buffer : List Nat),
    List.Pairwise (fun p q => p.offset + 2 ≤ q.offset ∨ q.offset + 2 ≤ p.offset) patches →
    (∀ p ∈ patches, p.offset + 1 < buffer.length) →
    (codegen2.resolve_patches symbols patches buffer).1.length = buffer.length ∧
    ∀ p ∈ patches,
      (∀ addr, symbols.lookup p.label = some addr →
        (codegen2.resolve_patches symbols patches buffer).1[p.offset]? = some (addr % 256) ∧
        (codegen2.resolve_patches symbols patches buffer).1[p.offset + 1]?
          = some (addr / 256 % 256)) ∧
      (symbols.lookup p.label = none →
        (codegen2.resolve_patches symbols patches buffer).1[p.offset]? = buffer[p.offset]? ∧
        (codegen2.resolve_patches symbols patches buffer).1[p.offset + 1]?
          = buffer[p.offset + 1]? ∧
        ("unresolved symbol: " ++ p.label) ∈
          (codegen2.resolve_patches symbols patches buffer).2) := by
  intro symbols patches
  induction patches with
  | nil =>
    intro buffer _ _
    exact ⟨rfl, by intro p hp; cases hp⟩
  | cons q ps ih =>
    intro buffer hpw hb
    have hpw2 := List.pairwise_cons.mp hpw
    refine ⟨resolve_length symbols (q :: ps) buffer, ?_⟩
    intro p hp
    rcases List.mem_cons.mp hp with rfl | hp2
    · constructor
      · intro addr haddr
        have step : codegen2.resolve_patches symbols (p :: ps) buffer
            = codegen2.resolve_patches symbols ps (codegen2.write16le buffer p.offset addr) := by
          rw [codegen2.resolve_patches, haddr]
        have hunt : ∀ r ∈ ps, p.offset ≠ r.offset ∧ p.offset ≠ r.offset + 1 := by
          intro r hr
          have := hpw2.1 r hr
          omega
        have hunt2 : ∀ r ∈ ps, p.offset + 1 ≠ r.offset ∧ p.offset + 1 ≠ r.offset + 1 := by
          intro r hr
          have := hpw2.1 r hr
          omega
        have hble := hb p (List.mem_cons_self p ps)
        constructor
        · rw [step, resolve_untouched symbols ps _ p.offset hunt,
            write16le_get_lo buffer p.offset addr hble]
        · rw [step, resolve_untouched symbols ps _ (p.offset + 1) hunt2,
            write16le_get_hi buffer p.offset addr hble]
      · intro hnone
        have step1 : (codegen2.resolve_patches symbols (p :: ps) buffer).1
            = (codegen2.resolve_patches symbols ps buffer).1 := by
          rw [codegen2.resolve_patches, hnone]
        have hunt : ∀ r ∈ ps, p.offset ≠ r.offset ∧ p.offset ≠ r.offset + 1 := by
          intro r hr
          have := hpw2.1 r hr
          omega
        have hunt2 : ∀ r ∈ ps, p.offset + 1 ≠ r.offset ∧ p.offset + 1 ≠ r.offset + 1 := by
          intro r hr
          have := hpw2.1 r hr
          omega
        refine ⟨?_, ?_, resolve_err_mem symbols (p :: ps) buffer p hp hnone⟩
        · rw [step1, resolve_untouched symbols ps buffer p.offset hunt]
        · rw [step1, resolve_untouched symbols ps buffer (p.offset + 1) hunt2]
    · have hd := hpw2.1 p hp2
      cases hq : symbols.lookup q.label with
      | some addr =>
        have step : codegen2.resolve_patches symbols (q :: ps) buffer
            = codegen2.resolve_patches symbols ps (codegen2.write16le buffer q.offset addr) := by
          rw [codegen2.resolve_patches, hq]
        have hblen : ∀ r ∈ ps, r.offset + 1 < (codegen2.write16le buffer q.offset addr).length := by
          intro r hr
          rw [write16le_length]
          exact hb r (List.mem_cons_of_mem _ hr)
        have IHp := (ih (codegen2.write16le buffer q.offset addr) hpw2.2 hblen).2 p hp2
        constructor
        · intro addr2 ha2
          rw [step]
          exact IHp.1 addr2 ha2
        · intro hnone
          rw [step]
          refine ⟨?_, ?_, (IHp.2 hnone).2.2⟩
          · rw [(IHp.2 hnone).1,
              write16le_get_ne buffer q.offset addr p.offset (by omega) (by omega)]
          · rw [(IHp.2 hnone).2.1,
              write16le_get_ne buffer q.offset addr (p.offset + 1) (by omega) (by omega)]
      | none =>
        have step1 : (codegen2.resolve_patches symbols (q :: ps) buffer).1
            = (codegen2.resolve_patches symbols ps buffer).1 := by
          rw [codegen2.resolve_patches, hq]
        have step2 : (codegen2.resolve_patches symbols (q :: ps) buffer).2
            = ("unresolved symbol: " ++ q.label)
              :: (codegen2.resolve_patches symbols ps buffer).2 := by
          rw [codegen2.resolve_patches, hq]
        have IHp := (ih buffer hpw2.2 (fun r hr => hb r (List.mem_cons_of_mem _ hr))).2 p hp2
        constructor
        · intro addr2 ha2
          rw [step1]
          exact IHp.1 addr2 ha2
        · intro hnone
          refine ⟨?_, ?_, ?_⟩
          · rw [step1]
            exact (IHp.2 hnone).1
          · rw [step1]
            exact (IHp.2 hnone).2.1
          · rw [step2]
            exact List.mem_cons_of_mem _ (IHp.2 hnone).2.2

/-- Witness for C2: one resolvable patch (`a` at offset 0) and one
unresolvable patch (`b` at offset 2) over the buffer `[1, 2, 3, 4]`. -/
theorem C2_patch_resolution_witness :
    (codegen2.resolve_patches [("a", 4660)]
      [⟨"a", 0, 0⟩, ⟨"b", 2, 1⟩] [1, 2, 3, 4]).1[(0 : Nat)]? = some (4660 % 256) ∧
    (codegen2.resolve_patches [("a", 4660)]
      [⟨"a", 0, 0⟩, ⟨"b", 2, 1⟩] [1, 2, 3, 4]).1[(0 : Nat) + 1]? = some (4660 / 256 % 256) ∧
    (codegen2.resolve_patches [("a", 4660)]
      [⟨"a", 0, 0⟩, ⟨"b", 2, 1⟩] [1, 2, 3, 4]).1[(2 : Nat)]? = [1, 2, 3, 4][(2 : Nat)]? ∧
    (codegen2.resolve_patches [("a", 4660)]
      [⟨"a", 0, 0⟩, ⟨"b", 2, 1⟩] [1, 2, 3, 4]).1[(2 : Nat) + 1]? = [1, 2, 3, 4][(2 : Nat) + 1]? ∧
    ("unresolved symbol: " ++ "b") ∈
      (codegen2.resolve_patches [("a", 4660)] [⟨"a", 0, 0⟩, ⟨"b", 2, 1⟩] [1, 2, 3, 4]).2 := by
  have h := C2_patch_resolution [("a", 4660)] [⟨"a", 0, 0⟩, ⟨"b", 2, 1⟩] [1, 2, 3, 4]
    (by decide) (by decide)
  have ha := (h.2 ⟨"a", 0, 0⟩ (by decide)).1 4660 (by decide)
  have hb2 := (h.2 ⟨"b", 2, 1⟩ (by decide)).2 (by decide)
  exact ⟨ha.1, ha.2, hb2.1, hb2.2.1, hb2.2.2⟩
